import Mathlib

/-!
Shallow embedding of the import/synchronization core of `pulp_ansible`
(files `src/pulp_ansible/app/tasks/utils.py` and
`src/pulp_ansible/app/galaxy/v3/views.py`), together with theorems that
settle the specification claims about that code.

Conventions:
* Python values appearing in YAML documents are modelled by the inductive
  type `Yaml`; the Python object `None` is `Yaml.null`.
* Exceptions are modelled with `Except`; stateful handlers are modelled by
  explicit state passing, the error path returning the input state
  unchanged (a raised exception aborts the handler before any mutation).
* External library calls (`yaml.safe_load`, the SHA-256 digest, and the
  pulpcore artifact store) are parameters or are modelled from the spec at
  the call boundary; each such spot is marked in its doc comment.
-/

/-- A YAML value as produced by Python's `yaml.safe_load`: Python `None`,
booleans, integers, strings, lists and (string-keyed) dictionaries. -/
inductive Yaml where
  | null : Yaml
  | bool (b : Bool) : Yaml
  | int (n : Int) : Yaml
  | str (s : String) : Yaml
  | list (items : List Yaml) : Yaml
  | map (entries : List (String × Yaml)) : Yaml
deriving Repr

/-- Python `dict.get(key)` on a string-keyed dictionary: the value bound to
the first occurrence of `key`, if any. -/
def Yaml.get (entries : List (String × Yaml)) (key : String) : Option Yaml :=
  (entries.find? (fun kv => kv.1 == key)).map (fun kv => kv.2)

/-- Python `d.get(key, None)`: the bound value, or `None` when the key is
absent.  A key bound to YAML `null` also yields Python `None`. -/
def pyGetOrNone (entries : List (String × Yaml)) (key : String) : Yaml :=
  match Yaml.get entries key with
  | none => Yaml.null
  | some v => v

/-- Python `d.get(key, default)`: the default applies only when the key is
absent (a key bound to `null` yields `null`, not the default). -/
def pyGetOrDefault (entries : List (String × Yaml)) (key : String) (dflt : Yaml) : Yaml :=
  match Yaml.get entries key with
  | none => dflt
  | some v => v

/-- Python iteration over a YAML value: a list iterates its items, a string
iterates its characters (each a one-character string), a dictionary
iterates its keys; every other value raises `TypeError` (`none` here). -/
def pyIter : Yaml → Option (List Yaml)
  | Yaml.list items => some items
  | Yaml.str s => some (s.data.map (fun c => Yaml.str (String.singleton c)))
  | Yaml.map entries => some (entries.map (fun kv => Yaml.str kv.1))
  | _ => none

/-- The distinct failure exits of `parse_collections_requirements_file`
(`src/pulp_ansible/app/tasks/utils.py`).  The first three are the three
`ValidationError` raise sites, told apart by their message; the last is an
uncaught Python `TypeError` from the `for` loop when the value under the
`collections` key is not iterable. -/
inductive ReqFileError where
  | failedToParseYaml : ReqFileError
  | expectingCollectionsDict : ReqFileError
  | entryMissingName : ReqFileError
  | typeErrorNotIterable : ReqFileError
deriving DecidableEq, Repr

/-- One iteration of the entry loop of `parse_collections_requirements_file`:
a dict entry must carry a non-null `name` and contributes
`(name, version or "*", source or None)`; any other entry contributes
`(entry, "*", None)`. -/
def parseEntry (collection_req : Yaml) : Except ReqFileError (Yaml × Yaml × Yaml) :=
  match collection_req with
  | Yaml.map entries =>
      match pyGetOrNone entries "name" with
      | Yaml.null => Except.error ReqFileError.entryMissingName
      | req_name =>
          let req_version := pyGetOrDefault entries "version" (Yaml.str "*")
          let req_source := pyGetOrNone entries "source"
          Except.ok (req_name, req_version, req_source)
  | other => Except.ok (other, Yaml.str "*", Yaml.null)

/-- The entry loop of `parse_collections_requirements_file`: entries are
processed in document order, appending one triple each, stopping at the
first failing entry. -/
def parseEntries : List Yaml → Except ReqFileError (List (Yaml × Yaml × Yaml))
  | [] => Except.ok []
  | e :: rest =>
      match parseEntry e with
      | Except.error err => Except.error err
      | Except.ok t =>
          match parseEntries rest with
          | Except.error err => Except.error err
          | Except.ok ts => Except.ok (t :: ts)

/-- Embedding of `parse_collections_requirements_file`
(`src/pulp_ansible/app/tasks/utils.py`).  `safe_load` stands for the
external `yaml.safe_load` library call (its error value is the YAML error
message); `none` and `""` model the falsy Python inputs `None` and the
empty string.  The result triples are Python values (`Yaml.null` is
Python `None`). -/
def parse_collections_requirements_file
    (safe_load : String → Except String Yaml)
    (requirements_file_string : Option String) :
    Except ReqFileError (List (Yaml × Yaml × Yaml)) :=
  match requirements_file_string with
  | none => Except.ok []
  | some s =>
      if s.isEmpty then Except.ok []
      else
        match safe_load s with
        | Except.error _ => Except.error ReqFileError.failedToParseYaml
        | Except.ok requirements =>
            match requirements with
            | Yaml.map entries =>
                match Yaml.get entries "collections" with
                | none => Except.error ReqFileError.expectingCollectionsDict
                | some collections =>
                    match pyIter collections with
                    | none => Except.error ReqFileError.typeErrorNotIterable
                    | some reqs => parseEntries reqs
            | _ => Except.error ReqFileError.expectingCollectionsDict

/-- One element of a Galaxy API page's `results` list, as consumed by
`filter_namespace`: the code only inspects `result["namespace"]["name"]`;
all other fields of the result object are carried through untouched and
are modelled by the opaque-to-the-code `payload` string. -/
structure GalaxyResult where
  namespace_name : String
  payload : String
deriving DecidableEq, Repr

/-- A fetched metadata page (a JSON dictionary).  `results = none` models a
dictionary without a `results` key; the dictionary's other keys are
carried in `rest`, untouched by `filter_namespace`. -/
structure GalaxyMetadata where
  results : Option (List GalaxyResult)
  rest : List (String × String)
deriving DecidableEq, Repr

/-- Python's `parse_qs(query).get(key)` over the already-split, decoded
key/value pairs of a URL query string: `parse_qs` (with its default
`keep_blank_values=False`) drops blank values, groups the remaining values
by key in order, and `dict.get` yields `None` (`none`) for an absent key.
`urlparse`/`parse_qs` are Python standard-library collaborators, modelled
here at the key/value-pair level. -/
def parse_qs_get (query_pairs : List (String × String)) (key : String) :
    Option (List String) :=
  match ((query_pairs.filter (fun kv => kv.2 != "")).filter
      (fun kv => kv.1 == key)).map (fun kv => kv.2) with
  | [] => none
  | v :: vs => some (v :: vs)

/-- Embedding of `filter_namespace` (`src/pulp_ansible/app/tasks/utils.py`).
The url argument is represented by its query string's key/value pairs.
When `filtering` is set, the query carries a (truthy) `namespace__name`
value list, and the page has a (truthy, i.e. non-empty) `results` list,
the results are replaced by exactly those whose singleton namespace-name
list equals the query's value list; otherwise the metadata is returned
unchanged. -/
def filter_namespace (metadata : GalaxyMetadata)
    (url_query : List (String × String)) (filtering : Bool := true) :
    GalaxyMetadata :=
  match parse_qs_get url_query "namespace__name", metadata.results, filtering with
  | some nspace, some (r :: rs), true =>
      { metadata with
        results := some ((r :: rs).filter
          (fun result => [result.namespace_name] == nspace)) }
  | _, _, _ => metadata

/-- A semantic-version pre-release identifier: numeric identifiers order
below alphanumeric ones (`Sum.Lex`), numeric ones by value, alphanumeric
ones by code-point lexicographic order on their characters — the tie-break
rules of semver 2.0 as implemented by the `semantic_version` library. -/
abbrev PreId := Nat ⊕ₗ List Char

/-- A parsed semantic version `major.minor.patch[-prerelease][+build]`.
Build metadata does not participate in precedence and is not retained. -/
structure SemVer where
  major : Nat
  minor : Nat
  patch : Nat
  prerelease : List PreId
deriving DecidableEq

/-- The precedence key of a semantic version: compare
`(major, minor, patch)` lexicographically, then the pre-release, where a
release (empty pre-release) is greater than any pre-release (`⊤`), and
pre-release identifier lists compare lexicographically with a strict
prefix ordering below its extensions. -/
abbrev SemKey := Nat ×ₗ Nat ×ₗ Nat ×ₗ WithTop (List PreId)

/-- Precedence key of a `SemVer`, per semver 2.0 precedence. -/
def SemVer.key (v : SemVer) : SemKey :=
  toLex (v.major, toLex (v.minor, toLex (v.patch,
    (match v.prerelease with
     | [] => (⊤ : WithTop (List PreId))
     | p :: ps => ((p :: ps : List PreId) : WithTop (List PreId))))))

/-- Value of a non-empty run of decimal digits. -/
def digitsToNat (cs : List Char) : Nat :=
  cs.foldl (fun n c => 10 * n + (c.toNat - Char.toNat '0')) 0

/-- Split a character list on a separator; `n` separators yield `n + 1`
(possibly empty) chunks. -/
def splitOnChar (sep : Char) : List Char → List (List Char)
  | [] => [[]]
  | c :: rest =>
      if c = sep then [] :: splitOnChar sep rest
      else
        match splitOnChar sep rest with
        | [] => [[c]]
        | h :: t => (c :: h) :: t

/-- Split at the first occurrence of a separator: the part before it, and
(when the separator occurs) the part after it. -/
def breakAtChar (sep : Char) : List Char → List Char × Option (List Char)
  | [] => ([], none)
  | c :: rest =>
      if c = sep then ([], some rest)
      else
        match breakAtChar sep rest with
        | (before, after) => (c :: before, after)

/-- A `major`/`minor`/`patch` component: a non-empty all-digit run. -/
def parseNumComponent (cs : List Char) : Option Nat :=
  if cs ≠ [] ∧ cs.all Char.isDigit then some (digitsToNat cs) else none

/-- One pre-release identifier: non-empty, over `[0-9A-Za-z-]`; an
all-digit identifier (without leading zero) is numeric, the rest are
alphanumeric — as in the `semantic_version` library. -/
def parsePreId (cs : List Char) : Option PreId :=
  if cs = [] then none
  else if ¬ cs.all (fun c => c.isDigit ∨ c.isAlpha ∨ c = '-') then none
  else if cs.all Char.isDigit then
    if 1 < cs.length ∧ cs.head? = some '0' then none
    else some (toLex (Sum.inl (digitsToNat cs)))
  else some (toLex (Sum.inr cs))

/-- Model of the external `semantic_version.Version(version_string)`
constructor used by `CollectionVersionViewSet.list`: strict parsing of
`major.minor.patch`, an optional `-`-introduced dot-separated pre-release,
and optional ignored `+`-introduced build metadata; `none` models the
`ValueError` raised on an invalid version string. -/
def semanticVersionOfString (s : String) : Option SemVer :=
  match breakAtChar '+' s.data with
  | (beforeBuild, _) =>
      match breakAtChar '-' beforeBuild with
      | (core, pre) =>
          match splitOnChar '.' core with
          | [ma, mi, pa] =>
              match parseNumComponent ma, parseNumComponent mi, parseNumComponent pa with
              | some major, some minor, some patch =>
                  match pre with
                  | none => some ⟨major, minor, patch, []⟩
                  | some p =>
                      match (splitOnChar '.' p).mapM parsePreId with
                      | some ids => some ⟨major, minor, patch, ids⟩
                      | none => none
              | _, _, _ => none
          | _ => none

/-- A `CollectionVersion` record as touched by the view code: identity
fields, the mutable `is_certified`/`is_highest` flags, and an opaque
remainder standing for every other stored column. -/
structure CollectionVersionRec where
  nspace : String
  name : String
  version : String
  is_certified : Bool
  is_highest : Bool
  payload : String
deriving DecidableEq, Repr

/-- The precedence key of a record's stored version string, when it
parses. -/
def versionKeyOf (v : CollectionVersionRec) : Option SemKey :=
  (semanticVersionOfString v.version).map SemVer.key

/-- `a` precedes-or-ties `b` in a semantic-version-descending listing:
whenever both stored version strings parse, `b`'s precedence key is at
most `a`'s. -/
def semverDescends (a b : CollectionVersionRec) : Prop :=
  ∀ ka kb, versionKeyOf a = some ka → versionKeyOf b = some kb → kb ≤ ka

/-- The comparison `sorted(..., reverse=True)` effectively sorts by: keep
`a` before `b` exactly when `a`'s key is at least `b`'s (stable on
ties). -/
def byKeyDesc (a b : SemKey × CollectionVersionRec) : Prop := b.1 ≤ a.1

instance : DecidableRel byKeyDesc :=
  fun a b => inferInstanceAs (Decidable (b.1 ≤ a.1))

instance : IsTotal (SemKey × CollectionVersionRec) byKeyDesc :=
  ⟨fun a b => le_total b.1 a.1⟩

instance : IsTrans (SemKey × CollectionVersionRec) byKeyDesc :=
  ⟨fun _ _ _ h1 h2 => le_trans h2 h1⟩

/-- Pair every record of the queryset with its parsed precedence key,
in order; `none` models the `ValueError` Python's key function would raise
on an invalid stored version string. -/
def keyedVersions : List CollectionVersionRec →
    Option (List (SemKey × CollectionVersionRec))
  | [] => some []
  | v :: vs =>
      match semanticVersionOfString v.version, keyedVersions vs with
      | some sv, some rest => some ((sv.key, v) :: rest)
      | _, _ => none

/-- `sorted(queryset, key=lambda obj: semantic_version.Version(obj.version),
reverse=True)`: pair every record with its parsed version key (failing like
Python would if some stored version string is invalid), then stable-sort
descending by key.  `List.insertionSort` with the reflexive `≥`-style
relation is a stable sort, hence produces the same list as CPython's
stable `sorted(..., reverse=True)`. -/
def sortByVersionDesc (queryset : List CollectionVersionRec) :
    Option (List CollectionVersionRec) :=
  match keyedVersions queryset with
  | none => none
  | some keyed =>
      some ((keyed.insertionSort byKeyDesc).map (fun kv => kv.2))

/-- Embedding of `CollectionVersionViewSet.list`
(`src/pulp_ansible/app/galaxy/v3/views.py`): the distribution's queryset
for one `(namespace, name)` group, sorted by semantic version descending.
Pagination and serialization are outside the claims and omitted; the
returned list is the serialized order. -/
def CollectionVersionViewSet_list (queryset : List CollectionVersionRec) :
    Option (List CollectionVersionRec) :=
  sortByVersionDesc queryset

/-- A reservation key passed to `enqueue_with_reservation`: the source
builds `locks = [str(artifact.pk)]` and appends the repository when the
distribution has one. -/
inductive ReservationKey where
  | artifactKey (pk : String) : ReservationKey
  | repositoryKey (pk : String) : ReservationKey
deriving DecidableEq, Repr

/-- Lifecycle states of an import task (§3 ImportJob). -/
inductive JobState where
  | queued : JobState
  | running : JobState
  | completed : JobState
  | failed : JobState
  | canceled : JobState
deriving DecidableEq, Repr

/-- An enqueued `import_collection` task: its id, the reserved keys, its
state, and the keyword arguments carried to the worker. -/
structure ImportJobRec where
  task_id : Nat
  locks : List ReservationKey
  state : JobState
  artifact_pk : String
  repository_pk : Option String
deriving DecidableEq, Repr

/-- The shared persistent state the upload view touches: the pks of saved
Artifacts (an Artifact's pk is its canonical content digest — the
content-addressable identity of §3) and the task queue.

Modelled from the spec: the pulpcore Artifact store keeps at most one
Artifact per unique digest, `Artifact.save` surfacing a second save of an
existing digest as an `IntegrityError` (a uniqueness invariant at creation
time); `enqueue_with_reservation` appends a task in `queued` state. -/
structure PulpState where
  artifacts : List String
  tasks : List ImportJobRec
deriving DecidableEq, Repr

/-- The `AnsibleDistribution` fields the upload view reads: the repository
pk when the distribution has a repository. -/
structure AnsibleDistributionRec where
  base_path : String
  repository : Option String
deriving DecidableEq, Repr

/-- The two `ValidationError` exits of `CollectionUploadViewSet.create`,
told apart by their message. -/
inductive UploadError where
  | sha256Mismatch : UploadError
  | artifactAlreadyExists : UploadError
deriving DecidableEq, Repr

/-- The successful `Response` of `CollectionUploadViewSet.create`: HTTP 202
and a `task` href carrying the enqueued task's id. -/
structure UploadResponse where
  status : Nat
  task_id : Nat
deriving DecidableEq, Repr

/-- Embedding of `CollectionUploadViewSet.create`
(`src/pulp_ansible/app/galaxy/v3/views.py`).  `sha256` is the external
digest function over the uploaded bytes; `expected_sha256 = none` models a
falsy (absent/blank) `sha256` form field.

Control flow as in the source: build `expected_digests`;
`Artifact.init_and_validate` (modelled from the spec: computes the digest
and raises `DigestValidationError` on a mismatch with any expected digest,
re-raised as a `ValidationError`); `artifact.save()` (modelled from the
spec: `IntegrityError` when an Artifact with that digest already exists,
re-raised as a `ValidationError`); then `enqueue_with_reservation` with
`locks = [str(artifact.pk)]` plus the distribution's repository, and a
202 response naming the task.  The error paths leave the state unchanged
(the exception aborts the handler before any mutation). -/
def CollectionUploadViewSet_create (sha256 : List Nat → String)
    (distro : AnsibleDistributionRec) (file : List Nat)
    (expected_sha256 : Option String) (st : PulpState) :
    PulpState × Except UploadError UploadResponse :=
  let digest := sha256 file
  let digestOk : Bool :=
    match expected_sha256 with
    | none => true
    | some expected => expected == digest
  if digestOk then
    if digest ∈ st.artifacts then
      (st, Except.error UploadError.artifactAlreadyExists)
    else
      let locks := ReservationKey.artifactKey digest ::
        (match distro.repository with
         | some repo => [ReservationKey.repositoryKey repo]
         | none => [])
      let job : ImportJobRec :=
        { task_id := st.tasks.length, locks := locks, state := JobState.queued,
          artifact_pk := digest, repository_pk := distro.repository }
      ({ artifacts := digest :: st.artifacts, tasks := st.tasks ++ [job] },
       Except.ok { status := 202, task_id := job.task_id })
  else
    (st, Except.error UploadError.sha256Mismatch)

/-- The two HTTP methods routed to `set_certified`
(`@action(methods=["PUT", "DELETE"], ...)`). -/
inductive PutOrDelete where
  | put : PutOrDelete
  | delete : PutOrDelete
deriving DecidableEq, Repr

/-- Embedding of `CollectionVersionViewSet.set_certified`
(`src/pulp_ansible/app/galaxy/v3/views.py`):
`obj.is_certified = request.method == "PUT"; obj.save()`, answering
`Response({})` (HTTP 200).  The task queue is threaded through to show no
job is involved; the saved object is returned next to it. -/
def CollectionVersionViewSet_set_certified (method : PutOrDelete)
    (obj : CollectionVersionRec) (st : PulpState) :
    CollectionVersionRec × PulpState × Nat :=
  ({ obj with is_certified := method == PutOrDelete.put }, st, 200)

/-- A requirements entry as the specification describes a well-formed one
in claim C3: a bare identifier string, or a record carrying a (non-null)
`name`. -/
def WellFormedEntry (e : Yaml) : Prop :=
  (∃ s, e = Yaml.str s) ∨
  (∃ kvs, e = Yaml.map kvs ∧ pyGetOrNone kvs "name" ≠ Yaml.null)

/-- The `(name, versionConstraint, source)` triple the specification
promises per entry (claim C3's words, not the source code): a bare string
yields `(thatString, "*", None)`; a record yields its `name`, its
`version` or `"*"` when absent, and its `source` or `None` when
absent. -/
def specTriple : Yaml → Yaml × Yaml × Yaml
  | Yaml.str s => (Yaml.str s, Yaml.str "*", Yaml.null)
  | Yaml.map kvs =>
      ((Yaml.get kvs "name").getD Yaml.null,
       (Yaml.get kvs "version").getD (Yaml.str "*"),
       (Yaml.get kvs "source").getD Yaml.null)
  | other => (other, Yaml.str "*", Yaml.null)

/-- An iterated requirements entry that does not trip the missing-`name`
check: if it is a record, its `name` is present and non-null. -/
def EntryHasName (e : Yaml) : Prop :=
  ∀ kvs, e = Yaml.map kvs → pyGetOrNone kvs "name" ≠ Yaml.null

/-! ## Helper lemmas -/

/-- On singleton lists, list-level `==` is element-level `==`. -/
theorem singleton_beq_singleton (a b : String) : ([a] == [b]) = (a == b) := by
  simp [BEq.beq, List.beq]

/-! ## Theorems settling the claims -/

/-- **C7**: for every empty or absent requirements input (`None` or the
empty string), `parse_collections_requirements_file` returns the empty
list and raises no error. -/
theorem C7_empty_or_absent_input_yields_empty_list
    (safe_load : String → Except String Yaml) :
    parse_collections_requirements_file safe_load none = Except.ok [] ∧
    parse_collections_requirements_file safe_load (some "") = Except.ok [] :=
  ⟨rfl, rfl⟩

/-- **C9**: the certification toggle sets `is_certified` to `true` on a PUT
request and to `false` on a DELETE request, as a direct synchronous
mutation — the response (HTTP 200) is produced inline and the task queue
is untouched, so no job is involved — and changes no field of the version
other than `is_certified`. -/
theorem C9_set_certified_direct_mutation (obj : CollectionVersionRec)
    (st : PulpState) :
    (CollectionVersionViewSet_set_certified PutOrDelete.put obj st).1.is_certified = true ∧
    (CollectionVersionViewSet_set_certified PutOrDelete.delete obj st).1.is_certified = false ∧
    (∀ m, (CollectionVersionViewSet_set_certified m obj st).1.nspace = obj.nspace ∧
      (CollectionVersionViewSet_set_certified m obj st).1.name = obj.name ∧
      (CollectionVersionViewSet_set_certified m obj st).1.version = obj.version ∧
      (CollectionVersionViewSet_set_certified m obj st).1.is_highest = obj.is_highest ∧
      (CollectionVersionViewSet_set_certified m obj st).1.payload = obj.payload) ∧
    (∀ m, (CollectionVersionViewSet_set_certified m obj st).2 = (st, 200)) :=
  ⟨rfl, rfl, fun _ => ⟨rfl, rfl, rfl, rfl, rfl⟩, fun _ => rfl⟩

/-- **C10**: the namespace re-filtering step is the identity on the
metadata whenever filtering is disabled, the query carries no
`namespace__name` parameter, or the metadata has no non-empty `results`
entry. -/
theorem C10_filter_namespace_identity (metadata : GalaxyMetadata)
    (url_query : List (String × String)) (filtering : Bool)
    (h : filtering = false ∨ parse_qs_get url_query "namespace__name" = none ∨
      metadata.results = none ∨ metadata.results = some []) :
    filter_namespace metadata url_query filtering = metadata := by
  unfold filter_namespace
  split
  · rcases h with h | h | h | h <;> simp_all
  · rfl

/-- **C10** witness: a query without a `namespace__name` parameter leaves a
concrete page unchanged. -/
theorem C10_witness :
    parse_qs_get [("page", "2")] "namespace__name" = none ∧
    filter_namespace ⟨some [⟨"a", "p1"⟩], [("count", "1")]⟩ [("page", "2")] true
      = ⟨some [⟨"a", "p1"⟩], [("count", "1")]⟩ :=
  ⟨rfl, C10_filter_namespace_identity _ _ _ (Or.inr (Or.inl rfl))⟩

/-- **C5**: when filtering is enabled and the query carries the namespace
filter value `v`, re-filtering replaces the page's results with exactly
those original entries whose namespace name equals `v`, in their original
relative order (a sublist selected by `List.filter`), leaving every other
key of the metadata unchanged. -/
theorem C5_refilter_by_namespace (metadata : GalaxyMetadata)
    (url_query : List (String × String)) (v : String) (l : List GalaxyResult)
    (hq : parse_qs_get url_query "namespace__name" = some [v])
    (hr : metadata.results = some l) :
    filter_namespace metadata url_query true =
      { metadata with
        results := some (l.filter (fun r => r.namespace_name == v)) } := by
  obtain ⟨res, rest⟩ := metadata
  simp only at hr
  subst hr
  cases l with
  | nil => simp [filter_namespace, hq]
  | cons r rs =>
      simp only [filter_namespace, hq]
      simp [List.filter_congr (fun (x : GalaxyResult) _ => singleton_beq_singleton x.namespace_name v)]

/-- **C5** witness: on a concrete page and query the filter keeps exactly
the matching entries, in order. -/
theorem C5_witness :
    parse_qs_get [("namespace__name", "a")] "namespace__name" = some ["a"] ∧
    filter_namespace ⟨some [⟨"a", "p1"⟩, ⟨"b", "p2"⟩, ⟨"a", "p3"⟩], [("x", "y")]⟩
        [("namespace__name", "a")] true
      = ⟨some [⟨"a", "p1"⟩, ⟨"a", "p3"⟩], [("x", "y")]⟩ :=
  ⟨rfl, by
    have h := C5_refilter_by_namespace
      ⟨some [⟨"a", "p1"⟩, ⟨"b", "p2"⟩, ⟨"a", "p3"⟩], [("x", "y")]⟩
      [("namespace__name", "a")] "a" [⟨"a", "p1"⟩, ⟨"b", "p2"⟩, ⟨"a", "p3"⟩] rfl rfl
    simpa using h⟩

/-- **C1** (counterexample): uploading bytes whose digest (`"d0"`) already
identifies a stored Artifact does not produce a successful
`Duplicate`-style response referencing the existing Artifact — the view
answers the caller with the `ValidationError` "Artifact already exists."
(an error response, not an idempotent success). -/
theorem C1_counterexample_duplicate_is_an_error :
    (CollectionUploadViewSet_create (fun _ => "d0")
        { base_path := "p", repository := none } [1, 2] none
        { artifacts := ["d0"], tasks := [] }).2
      = Except.error UploadError.artifactAlreadyExists := rfl

/-- **C1** (amended): for every upload whose byte payload hashes to a
digest for which an Artifact already exists (and whose expected digest, if
supplied, is correct), the intake rejects the upload with the validation
error "Artifact already exists.", leaving the store unchanged: no second
Artifact is created and no import job is enqueued. -/
theorem C1_amended_duplicate_upload_rejected (sha256 : List Nat → String)
    (distro : AnsibleDistributionRec) (file : List Nat)
    (expected_sha256 : Option String) (st : PulpState)
    (hdup : sha256 file ∈ st.artifacts)
    (hok : expected_sha256 = none ∨ expected_sha256 = some (sha256 file)) :
    CollectionUploadViewSet_create sha256 distro file expected_sha256 st
      = (st, Except.error UploadError.artifactAlreadyExists) := by
  unfold CollectionUploadViewSet_create
  rcases hok with h | h <;> subst h <;> simp [hdup]

/-- **C1** (amended) witness: the concrete duplicate upload of
`C1_counterexample_duplicate_is_an_error`, with the whole state
unchanged. -/
theorem C1_amended_witness :
    ((fun _ : List Nat => "d0") [1, 2]
        ∈ ({ artifacts := ["d0"], tasks := [] } : PulpState).artifacts) ∧
    CollectionUploadViewSet_create (fun _ => "d0")
        { base_path := "p", repository := none } [1, 2] none
        { artifacts := ["d0"], tasks := [] }
      = ({ artifacts := ["d0"], tasks := [] },
         Except.error UploadError.artifactAlreadyExists) :=
  ⟨by decide,
   C1_amended_duplicate_upload_rejected _ _ _ _ _ (by decide) (Or.inl rfl)⟩

/-- **C2**: when an expected sha256 digest is supplied and differs from the
computed digest of the payload, the upload fails with the digest-mismatch
`ValidationError` and the store state is returned unchanged — no Artifact
is saved and no import job is enqueued (the rejection short-circuits
before persistence). -/
theorem C2_digest_mismatch_short_circuits (sha256 : List Nat → String)
    (distro : AnsibleDistributionRec) (file : List Nat) (expected : String)
    (st : PulpState) (hne : expected ≠ sha256 file) :
    CollectionUploadViewSet_create sha256 distro file (some expected) st
      = (st, Except.error UploadError.sha256Mismatch) := by
  unfold CollectionUploadViewSet_create
  simp [hne]

/-- **C2** witness: a concrete wrong expected digest is rejected with the
store unchanged. -/
theorem C2_witness :
    ("bb" : String) ≠ (fun _ : List Nat => "aa") [1] ∧
    CollectionUploadViewSet_create (fun _ => "aa")
        { base_path := "p", repository := none } [1] (some "bb")
        { artifacts := [], tasks := [] }
      = ({ artifacts := [], tasks := [] }, Except.error UploadError.sha256Mismatch) :=
  ⟨by decide, C2_digest_mismatch_short_circuits _ _ _ _ _ (by decide)⟩

/-- **C8**: every successful upload submission enqueues exactly one import
job, in `queued` state, whose reserved keys contain the artifact's
identity key and contain the target repository's identity key exactly when
the distribution has a repository; the call returns directly with a 202
response carrying that job's task id (no waiting on the import). -/
theorem C8_submit_enqueues_with_reservations (sha256 : List Nat → String)
    (distro : AnsibleDistributionRec) (file : List Nat)
    (expected_sha256 : Option String) (st : PulpState)
    (hok : expected_sha256 = none ∨ expected_sha256 = some (sha256 file))
    (hfresh : sha256 file ∉ st.artifacts) :
    ∃ job : ImportJobRec,
      (CollectionUploadViewSet_create sha256 distro file expected_sha256 st).1.tasks
          = st.tasks ++ [job] ∧
      (CollectionUploadViewSet_create sha256 distro file expected_sha256 st).2
          = Except.ok { status := 202, task_id := job.task_id } ∧
      job.state = JobState.queued ∧
      ReservationKey.artifactKey (sha256 file) ∈ job.locks ∧
      ((∃ repo, distro.repository = some repo ∧
          ReservationKey.repositoryKey repo ∈ job.locks) ↔ distro.repository.isSome) ∧
      (distro.repository = none →
        ∀ repo, ReservationKey.repositoryKey repo ∉ job.locks) := by
  refine ⟨{ task_id := st.tasks.length,
            locks := ReservationKey.artifactKey (sha256 file) ::
              (match distro.repository with
               | some repo => [ReservationKey.repositoryKey repo]
               | none => []),
            state := JobState.queued, artifact_pk := sha256 file,
            repository_pk := distro.repository }, ?_, ?_, rfl, ?_, ?_, ?_⟩
  · unfold CollectionUploadViewSet_create
    rcases hok with h | h <;> subst h <;> simp [hfresh]
  · unfold CollectionUploadViewSet_create
    rcases hok with h | h <;> subst h <;> simp [hfresh]
  · exact List.mem_cons_self _ _
  · cases hrep : distro.repository <;> simp
  · intro hnone repo
    rw [hnone]
    simp

/-- **C8** witness: a concrete successful upload into a distribution with a
repository enqueues one queued job reserving both keys, answered with
202. -/
theorem C8_witness :
    ((some "aa" : Option String) = none ∨
      (some "aa" : Option String) = some ((fun _ : List Nat => "aa") [1])) ∧
    ((fun _ : List Nat => "aa") [1]
        ∉ ({ artifacts := [], tasks := [] } : PulpState).artifacts) ∧
    (∃ job : ImportJobRec,
      (CollectionUploadViewSet_create (fun _ => "aa")
          { base_path := "p", repository := some "r1" } [1] (some "aa")
          { artifacts := [], tasks := [] }).1.tasks
          = ({ artifacts := [], tasks := [] } : PulpState).tasks ++ [job] ∧
      (CollectionUploadViewSet_create (fun _ => "aa")
          { base_path := "p", repository := some "r1" } [1] (some "aa")
          { artifacts := [], tasks := [] }).2
          = Except.ok { status := 202, task_id := job.task_id } ∧
      job.state = JobState.queued ∧
      ReservationKey.artifactKey ((fun _ : List Nat => "aa") [1]) ∈ job.locks ∧
      ((∃ repo, ({ base_path := "p", repository := some "r1" } :
            AnsibleDistributionRec).repository = some repo ∧
          ReservationKey.repositoryKey repo ∈ job.locks) ↔
        ({ base_path := "p", repository := some "r1" } :
            AnsibleDistributionRec).repository.isSome) ∧
      (({ base_path := "p", repository := some "r1" } :
            AnsibleDistributionRec).repository = none →
        ∀ repo, ReservationKey.repositoryKey repo ∉ job.locks)) :=
  ⟨Or.inr rfl, by decide,
   C8_submit_enqueues_with_reservations (fun _ => "aa")
     { base_path := "p", repository := some "r1" } [1] (some "aa")
     { artifacts := [], tasks := [] } (Or.inr rfl) (by decide)⟩

/-- `pyGetOrNone` is `Option.getD Yaml.null` of the raw lookup. -/
theorem pyGetOrNone_eq_getD (kvs : List (String × Yaml)) (k : String) :
    pyGetOrNone kvs k = (Yaml.get kvs k).getD Yaml.null := by
  unfold pyGetOrNone
  cases Yaml.get kvs k <;> rfl

/-- `pyGetOrDefault` is `Option.getD` of the raw lookup. -/
theorem pyGetOrDefault_eq_getD (kvs : List (String × Yaml)) (k : String) (d : Yaml) :
    pyGetOrDefault kvs k d = (Yaml.get kvs k).getD d := by
  unfold pyGetOrDefault
  cases Yaml.get kvs k <;> rfl

/-- A well-formed entry parses without error, to exactly the triple the
specification promises for it. -/
theorem parseEntry_wellFormed (e : Yaml) (h : WellFormedEntry e) :
    parseEntry e = Except.ok (specTriple e) := by
  rcases h with ⟨s, rfl⟩ | ⟨kvs, rfl, hname⟩
  · rfl
  · have hspec : specTriple (Yaml.map kvs)
        = (pyGetOrNone kvs "name",
           pyGetOrDefault kvs "version" (Yaml.str "*"),
           pyGetOrNone kvs "source") := by
      simp [specTriple, pyGetOrNone_eq_getD, pyGetOrDefault_eq_getD]
    rw [hspec]
    simp only [parseEntry]

/-- A list of well-formed entries parses without error, to the promised
triples in document order. -/
theorem parseEntries_wellFormed (reqs : List Yaml)
    (h : ∀ e ∈ reqs, WellFormedEntry e) :
    parseEntries reqs = Except.ok (reqs.map specTriple) := by
  induction reqs with
  | nil => rfl
  | cons e rest ih =>
      simp only [parseEntries]
      rw [parseEntry_wellFormed e (h e (List.mem_cons_self e rest)),
        ih (fun x hx => h x (List.mem_cons_of_mem e hx))]
      rfl

/-- **C3**: for every well-formed requirements document — non-empty text
loading to a mapping whose `collections` key holds a list of entries that
are each a bare string or a record with a `name` — parsing returns exactly
one `(name, versionConstraint, source)` triple per entry, in document
order, with the defaults the specification states (`"*"` for a missing
version, `None` for a missing source).  Determinism holds by construction:
the embedding is a pure function of the document text and the loader. -/
theorem C3_parse_returns_triples_in_order
    (safe_load : String → Except String Yaml) (s : String)
    (entries : List (String × Yaml)) (reqs : List Yaml)
    (hs : s ≠ "")
    (hload : safe_load s = Except.ok (Yaml.map entries))
    (hcol : Yaml.get entries "collections" = some (Yaml.list reqs))
    (hwf : ∀ e ∈ reqs, WellFormedEntry e) :
    parse_collections_requirements_file safe_load (some s)
      = Except.ok (reqs.map specTriple) := by
  have hne : s.isEmpty = false := by
    cases hse : s.isEmpty
    · rfl
    · exact absurd ((String.isEmpty_iff s).mp hse) hs
  simp only [parse_collections_requirements_file, hne, hload, hcol,
    Bool.false_eq_true, if_false, pyIter]
  exact parseEntries_wellFormed reqs hwf

/-- **C3** witness: the specification's end-to-end scenario, the text
`"collections:\n  - alice.tools\n  - name: bob.utils\n    version: \">=2.0\""`
(whose YAML load is supplied concretely), parses to
`[("alice.tools","*",None), ("bob.utils",">=2.0",None)]`. -/
theorem C3_witness :
    ("collections:\n  - alice.tools\n  - name: bob.utils\n    version: \">=2.0\"" : String) ≠ "" ∧
    parse_collections_requirements_file
        (fun _ => Except.ok (Yaml.map [("collections", Yaml.list
          [Yaml.str "alice.tools",
           Yaml.map [("name", Yaml.str "bob.utils"),
                     ("version", Yaml.str ">=2.0")]])]))
        (some "collections:\n  - alice.tools\n  - name: bob.utils\n    version: \">=2.0\"")
      = Except.ok [(Yaml.str "alice.tools", Yaml.str "*", Yaml.null),
                   (Yaml.str "bob.utils", Yaml.str ">=2.0", Yaml.null)] :=
  ⟨by decide, by
    have h := C3_parse_returns_triples_in_order
      (fun _ => Except.ok (Yaml.map [("collections", Yaml.list
        [Yaml.str "alice.tools",
         Yaml.map [("name", Yaml.str "bob.utils"),
                   ("version", Yaml.str ">=2.0")]])]))
      "collections:\n  - alice.tools\n  - name: bob.utils\n    version: \">=2.0\""
      [("collections", Yaml.list
        [Yaml.str "alice.tools",
         Yaml.map [("name", Yaml.str "bob.utils"),
                   ("version", Yaml.str ">=2.0")]])]
      [Yaml.str "alice.tools",
       Yaml.map [("name", Yaml.str "bob.utils"), ("version", Yaml.str ">=2.0")]]
      (by decide) rfl rfl
      (by
        intro e he
        rcases List.mem_cons.mp he with rfl | he2
        · exact Or.inl ⟨_, rfl⟩
        rcases List.mem_cons.mp he2 with rfl | h3
        · exact Or.inr ⟨_, rfl, by simp [pyGetOrNone, Yaml.get]⟩
        · cases h3)
    exact h⟩

/-- **C6** (counterexample): the non-empty text `"collections:"` loads to a
mapping that does contain the `collections` key (bound to null) and has no
record entry at all, so the claim requires a successful list — but the
code's `for` loop raises an uncaught `TypeError` (an unhandled crash,
neither of the two `ValidationError` classes nor a success). -/
theorem C6_counterexample_null_collections_crashes :
    parse_collections_requirements_file
        (fun _ => Except.ok (Yaml.map [("collections", Yaml.null)]))
        (some "collections:")
      = Except.error ReqFileError.typeErrorNotIterable ∧
    (fun _ : String => Except.ok (Yaml.map [("collections", Yaml.null)]) :
        String → Except String Yaml) "collections:"
      = Except.ok (Yaml.map [("collections", Yaml.null)]) ∧
    Yaml.get [("collections", Yaml.null)] "collections" = some Yaml.null ∧
    ReqFileError.typeErrorNotIterable ≠ ReqFileError.failedToParseYaml ∧
    ReqFileError.typeErrorNotIterable ≠ ReqFileError.expectingCollectionsDict ∧
    ReqFileError.typeErrorNotIterable ≠ ReqFileError.entryMissingName :=
  ⟨rfl, rfl, rfl, by decide, by decide, by decide⟩

/-- An entry parses successfully exactly when it does not trip the
missing-`name` check. -/
theorem parseEntry_ok_iff (e : Yaml) :
    (∃ t, parseEntry e = Except.ok t) ↔ EntryHasName e := by
  constructor
  · rintro ⟨t, ht⟩ kvs rfl hnull
    simp only [parseEntry, hnull] at ht
    exact Except.noConfusion ht
  · intro h
    cases e with
    | map kvs =>
        have hname := h kvs rfl
        exact ⟨(pyGetOrNone kvs "name",
          pyGetOrDefault kvs "version" (Yaml.str "*"), pyGetOrNone kvs "source"),
          by simp only [parseEntry]⟩
    | null => exact ⟨_, rfl⟩
    | bool b => exact ⟨_, rfl⟩
    | int n => exact ⟨_, rfl⟩
    | str s => exact ⟨_, rfl⟩
    | list items => exact ⟨_, rfl⟩

/-- An entry fails with the missing-`name` error exactly when it is a
record whose `name` is absent or null. -/
theorem parseEntry_error_iff (e : Yaml) :
    parseEntry e = Except.error ReqFileError.entryMissingName ↔ ¬ EntryHasName e := by
  constructor
  · intro h hgood
    obtain ⟨t, ht⟩ := (parseEntry_ok_iff e).mpr hgood
    rw [h] at ht
    cases ht
  · intro h
    simp only [EntryHasName, not_forall] at h
    obtain ⟨kvs, rfl, hnull⟩ := h
    simp only [not_not] at hnull
    simp only [parseEntry, hnull]

/-- The only error a single entry can produce is the missing-`name`
error. -/
theorem parseEntry_error_eq (e : Yaml) (err : ReqFileError)
    (h : parseEntry e = Except.error err) :
    err = ReqFileError.entryMissingName := by
  cases e with
  | map kvs =>
      simp only [parseEntry] at h
      cases hn : pyGetOrNone kvs "name" <;> rw [hn] at h
      · injection h with h'
        exact h'.symm
      all_goals exact Except.noConfusion h
  | null => exact Except.noConfusion h
  | bool b => exact Except.noConfusion h
  | int n => exact Except.noConfusion h
  | str s => exact Except.noConfusion h
  | list items => exact Except.noConfusion h

/-- The entry loop only ever fails with the missing-`name` error, and only
when some entry is a record without a usable `name`. -/
theorem parseEntries_error_characterized (items : List Yaml)
    (err : ReqFileError) (h : parseEntries items = Except.error err) :
    err = ReqFileError.entryMissingName ∧ ∃ e ∈ items, ¬ EntryHasName e := by
  induction items with
  | nil => cases h
  | cons e rest ih =>
      simp only [parseEntries] at h
      cases he : parseEntry e with
      | error err2 =>
          rw [he] at h
          injection h with h'
          have herr := parseEntry_error_eq e err2 he
          exact ⟨h'.symm.trans herr, e, List.mem_cons_self e rest,
            (parseEntry_error_iff e).mp (herr ▸ he)⟩
      | ok t =>
          rw [he] at h
          cases hr : parseEntries rest with
          | error err2 =>
              rw [hr] at h
              injection h with h'
              obtain ⟨herr, e2, he2, hbad⟩ := ih (h' ▸ hr)
              exact ⟨herr, e2, List.mem_cons_of_mem e he2, hbad⟩
          | ok ts =>
              rw [hr] at h
              cases h

/-- The entry loop succeeds exactly when every iterated entry passes the
missing-`name` check. -/
theorem parseEntries_ok_iff (items : List Yaml) :
    (∃ l, parseEntries items = Except.ok l) ↔ ∀ e ∈ items, EntryHasName e := by
  induction items with
  | nil =>
      constructor
      · intro _ e he
        cases he
      · intro _
        exact ⟨[], rfl⟩
  | cons e rest ih =>
      constructor
      · rintro ⟨l, hl⟩ x hx
        simp only [parseEntries] at hl
        cases he : parseEntry e with
        | error err2 => rw [he] at hl; cases hl
        | ok t =>
            rw [he] at hl
            cases hr : parseEntries rest with
            | error err2 => rw [hr] at hl; cases hl
            | ok ts =>
                rcases List.mem_cons.mp hx with rfl | hx2
                · exact (parseEntry_ok_iff x).mp ⟨t, he⟩
                · exact (ih.mp ⟨ts, hr⟩) x hx2
      · intro hall
        obtain ⟨t, ht⟩ := (parseEntry_ok_iff e).mpr (hall e (List.mem_cons_self e rest))
        obtain ⟨ts, hts⟩ := ih.mpr (fun x hx => hall x (List.mem_cons_of_mem e hx))
        exact ⟨t :: ts, by simp only [parseEntries, ht, hts]⟩

/-- **C6** (amended): for every non-empty input text, parse fails with the
yaml-parse `ValidationError` (the spec's MalformedDocument) exactly when
the loader cannot parse the text; it fails with the expecting-collections
`ValidationError` (SchemaViolation, first site) exactly when the loaded
value is not a mapping containing the `collections` key; when the mapping
contains `collections`, a non-iterable value there crashes with an
uncaught `TypeError`, while with an iterable value parse fails with the
missing-name `ValidationError` (SchemaViolation, second site) exactly when
some iterated record entry lacks a non-null `name`, and returns a list
without error exactly when none does. -/
theorem C6_amended_error_taxonomy (safe_load : String → Except String Yaml)
    (s : String) (hs : s ≠ "") :
    (parse_collections_requirements_file safe_load (some s)
        = Except.error ReqFileError.failedToParseYaml
      ↔ ∃ msg, safe_load s = Except.error msg) ∧
    (parse_collections_requirements_file safe_load (some s)
        = Except.error ReqFileError.expectingCollectionsDict
      ↔ ∃ v, safe_load s = Except.ok v ∧
          ∀ entries, v = Yaml.map entries →
            Yaml.get entries "collections" = none) ∧
    (∀ entries c, safe_load s = Except.ok (Yaml.map entries) →
      Yaml.get entries "collections" = some c →
      (pyIter c = none →
        parse_collections_requirements_file safe_load (some s)
          = Except.error ReqFileError.typeErrorNotIterable) ∧
      (∀ items, pyIter c = some items →
        ((parse_collections_requirements_file safe_load (some s)
            = Except.error ReqFileError.entryMissingName)
          ↔ ∃ e ∈ items, ¬ EntryHasName e) ∧
        ((∃ l, parse_collections_requirements_file safe_load (some s)
            = Except.ok l)
          ↔ ∀ e ∈ items, EntryHasName e))) := by
  have hne : s.isEmpty = false := by
    cases hse : s.isEmpty
    · rfl
    · exact absurd ((String.isEmpty_iff s).mp hse) hs
  cases hload : safe_load s with
  | error msg =>
      have hp : parse_collections_requirements_file safe_load (some s)
          = Except.error ReqFileError.failedToParseYaml := by
        simp only [parse_collections_requirements_file, hne, Bool.false_eq_true,
          if_false, hload]
      refine ⟨by simp [hp], by simp [hp], ?_⟩
      intro entries c h1 h2
      exact Except.noConfusion h1
  | ok v =>
      cases v
      case map entries =>
          cases hget : Yaml.get entries "collections" with
          | none =>
              have hp : parse_collections_requirements_file safe_load (some s)
                  = Except.error ReqFileError.expectingCollectionsDict := by
                simp only [parse_collections_requirements_file, hne,
                  Bool.false_eq_true, if_false, hload, hget]
              refine ⟨by simp [hp], ?_, ?_⟩
              · constructor
                · intro _
                  refine ⟨Yaml.map entries, rfl, fun e2 he2 => ?_⟩
                  injection he2 with h3
                  exact h3 ▸ hget
                · intro _
                  exact hp
              · intro entries' c h1 h2
                injection h1 with h3
                injection h3 with h4
                rw [← h4, hget] at h2
                cases h2
          | some c =>
              cases hiter : pyIter c with
              | none =>
                  have hp : parse_collections_requirements_file safe_load (some s)
                      = Except.error ReqFileError.typeErrorNotIterable := by
                    simp only [parse_collections_requirements_file, hne,
                      Bool.false_eq_true, if_false, hload, hget, hiter]
                  refine ⟨by simp [hp], ?_, ?_⟩
                  · constructor
                    · intro habs
                      rw [hp] at habs
                      cases habs
                    · rintro ⟨v', hv', hnone⟩
                      injection hv' with h3
                      have h5 := hnone entries h3.symm
                      rw [hget] at h5
                      cases h5
                  · intro entries' c' h1 h2
                    injection h1 with h3
                    injection h3 with h4
                    subst h4
                    rw [hget] at h2
                    injection h2 with h5
                    subst h5
                    refine ⟨fun _ => hp, fun items hitems => ?_⟩
                    rw [hiter] at hitems
                    cases hitems
              | some items =>
                  have hp : parse_collections_requirements_file safe_load (some s)
                      = parseEntries items := by
                    simp only [parse_collections_requirements_file, hne,
                      Bool.false_eq_true, if_false, hload, hget, hiter]
                  refine ⟨?_, ?_, ?_⟩
                  · rw [hp]
                    constructor
                    · intro habs
                      have h6 := parseEntries_error_characterized items _ habs
                      cases h6.1
                    · rintro ⟨msg, hmsg⟩
                      exact Except.noConfusion hmsg
                  · rw [hp]
                    constructor
                    · intro habs
                      have h6 := parseEntries_error_characterized items _ habs
                      cases h6.1
                    · rintro ⟨v', hv', hnone⟩
                      injection hv' with h3
                      have h5 := hnone entries h3.symm
                      rw [hget] at h5
                      cases h5
                  · intro entries' c' h1 h2
                    injection h1 with h3
                    injection h3 with h4
                    subst h4
                    rw [hget] at h2
                    injection h2 with h5
                    subst h5
                    refine ⟨fun habs => ?_, ?_⟩
                    · rw [hiter] at habs
                      cases habs
                    · intro items' hitems'
                      rw [hiter] at hitems'
                      injection hitems' with h6
                      subst h6
                      constructor
                      · rw [hp]
                        constructor
                        · intro herr
                          exact (parseEntries_error_characterized items _ herr).2
                        · intro hbad
                          cases hres : parseEntries items with
                          | error err =>
                              rw [(parseEntries_error_characterized items _ hres).1]
                          | ok l =>
                              obtain ⟨e2, he2, hbad2⟩ := hbad
                              exact absurd ((parseEntries_ok_iff items).mp ⟨l, hres⟩ e2 he2) hbad2
                      · rw [hp]
                        exact parseEntries_ok_iff items
      all_goals (
        have hp : parse_collections_requirements_file safe_load (some s)
            = Except.error ReqFileError.expectingCollectionsDict := by
          simp only [parse_collections_requirements_file, hne, Bool.false_eq_true,
            if_false, hload]
        refine ⟨by simp [hp], ?_, ?_⟩
        · constructor
          · intro _
            exact ⟨_, rfl, fun e2 he2 => Yaml.noConfusion he2⟩
          · intro _
            exact hp
        · intro entries' c h1 h2
          injection h1 with h3
          exact Yaml.noConfusion h3)

/-- **C6** (amended) witness: the amended taxonomy instantiated at a
concrete loader and the concrete non-empty text `"collections:\n  - x"`,
whose load is a mapping binding `collections` to the list `["x"]`. -/
theorem C6_amended_witness :
    ((parse_collections_requirements_file
        (fun _ => Except.ok (Yaml.map [("collections", Yaml.list [Yaml.str "x"])]))
        (some "collections:\n  - x")
        = Except.error ReqFileError.failedToParseYaml
      ↔ ∃ msg : String,
          (Except.ok (Yaml.map [("collections", Yaml.list [Yaml.str "x"])]) :
            Except String Yaml) = Except.error msg) ∧
    (parse_collections_requirements_file
        (fun _ => Except.ok (Yaml.map [("collections", Yaml.list [Yaml.str "x"])]))
        (some "collections:\n  - x")
        = Except.error ReqFileError.expectingCollectionsDict
      ↔ ∃ v, (Except.ok (Yaml.map [("collections", Yaml.list [Yaml.str "x"])]) :
            Except String Yaml) = Except.ok v ∧
          ∀ entries, v = Yaml.map entries →
            Yaml.get entries "collections" = none) ∧
    (∀ entries c,
      (Except.ok (Yaml.map [("collections", Yaml.list [Yaml.str "x"])]) :
        Except String Yaml) = Except.ok (Yaml.map entries) →
      Yaml.get entries "collections" = some c →
      (pyIter c = none →
        parse_collections_requirements_file
          (fun _ => Except.ok (Yaml.map [("collections", Yaml.list [Yaml.str "x"])]))
          (some "collections:\n  - x")
          = Except.error ReqFileError.typeErrorNotIterable) ∧
      (∀ items, pyIter c = some items →
        ((parse_collections_requirements_file
            (fun _ => Except.ok (Yaml.map [("collections", Yaml.list [Yaml.str "x"])]))
            (some "collections:\n  - x")
            = Except.error ReqFileError.entryMissingName)
          ↔ ∃ e ∈ items, ¬ EntryHasName e) ∧
        ((∃ l, parse_collections_requirements_file
            (fun _ => Except.ok (Yaml.map [("collections", Yaml.list [Yaml.str "x"])]))
            (some "collections:\n  - x")
            = Except.ok l)
          ↔ ∀ e ∈ items, EntryHasName e)))) :=
  C6_amended_error_taxonomy
    (fun _ => Except.ok (Yaml.map [("collections", Yaml.list [Yaml.str "x"])]))
    "collections:\n  - x" (by decide)

/-- `keyedVersions` leaves the records in place (its second components are
the queryset) and pairs each record with the precedence key of that
record's own version string. -/
theorem keyedVersions_spec (vs : List CollectionVersionRec)
    (keyed : List (SemKey × CollectionVersionRec))
    (h : keyedVersions vs = some keyed) :
    keyed.map (fun kv => kv.2) = vs ∧
    ∀ p ∈ keyed, versionKeyOf p.2 = some p.1 := by
  induction vs generalizing keyed with
  | nil =>
      injection h with h1
      subst h1
      exact ⟨rfl, fun p hp => absurd hp (List.not_mem_nil p)⟩
  | cons v rest ih =>
      simp only [keyedVersions] at h
      cases hsv : semanticVersionOfString v.version with
      | none => rw [hsv] at h; cases h
      | some sv =>
          rw [hsv] at h
          cases hkr : keyedVersions rest with
          | none => rw [hkr] at h; cases h
          | some krest =>
              rw [hkr] at h
              injection h with h1
              subst h1
              obtain ⟨hmap, hkeys⟩ := ih krest hkr
              refine ⟨by simp [hmap], ?_⟩
              intro p hp
              rcases List.mem_cons.mp hp with rfl | hp2
              · simp [versionKeyOf, hsv]
              · exact hkeys p hp2

/-- A key-descending pairwise chain of keyed records maps to a
`semverDescends` pairwise chain of the records, given that every pair
carries the key of its own record. -/
theorem pairwise_byKeyDesc_map (l : List (SemKey × CollectionVersionRec))
    (hpw : l.Pairwise byKeyDesc)
    (hk : ∀ p ∈ l, versionKeyOf p.2 = some p.1) :
    (l.map (fun kv => kv.2)).Pairwise semverDescends := by
  induction l with
  | nil => exact List.Pairwise.nil
  | cons p rest ih =>
      rw [List.pairwise_cons] at hpw
      rw [List.map_cons, List.pairwise_cons]
      constructor
      · intro b hb
        obtain ⟨q, hq, rfl⟩ := List.mem_map.mp hb
        intro ka kb h1 h2
        have hp := hk p (List.mem_cons_self p rest)
        have hqk := hk q (List.mem_cons_of_mem p hq)
        rw [hp] at h1
        rw [hqk] at h2
        injection h1 with h1'
        injection h2 with h2'
        rw [← h1', ← h2']
        exact hpw.1 q hq
      · exact ih hpw.2 (fun q hq => hk q (List.mem_cons_of_mem p hq))

/-- **C4**: the version-listing endpoint (when every stored version string
parses) returns the `(namespace, name)` group ordered by semantic-version
precedence descending — pre-release tie-break rules included, so a release
orders above its own pre-releases — as a permutation of the queryset whose
first element is a semantic-version maximum of the whole output. -/
theorem C4_list_sorted_descending (queryset out : List CollectionVersionRec)
    (h : CollectionVersionViewSet_list queryset = some out) :
    List.Sorted semverDescends out ∧ out.Perm queryset ∧
    (∀ hd tl, out = hd :: tl → ∀ v ∈ out, semverDescends hd v) := by
  unfold CollectionVersionViewSet_list sortByVersionDesc at h
  cases hkv : keyedVersions queryset with
  | none => rw [hkv] at h; cases h
  | some keyed =>
      rw [hkv] at h
      injection h with h1
      subst h1
      obtain ⟨hmap, hkeys⟩ := keyedVersions_spec queryset keyed hkv
      have hpw : (keyed.insertionSort byKeyDesc).Pairwise byKeyDesc :=
        List.sorted_insertionSort byKeyDesc keyed
      have hkeys2 : ∀ p ∈ keyed.insertionSort byKeyDesc,
          versionKeyOf p.2 = some p.1 :=
        fun p hp => hkeys p ((List.perm_insertionSort byKeyDesc keyed).mem_iff.mp hp)
      have hsorted := pairwise_byKeyDesc_map _ hpw hkeys2
      refine ⟨hsorted, ?_, ?_⟩
      · have hperm := (List.perm_insertionSort byKeyDesc keyed).map (fun kv => kv.2)
        rw [hmap] at hperm
        exact hperm
      · intro hd tl hout v hv
        rw [hout] at hsorted hv
        rcases List.mem_cons.mp hv with rfl | hv2
        · intro ka kb h1 h2
          rw [h1] at h2
          injection h2 with h3
          exact le_of_eq h3.symm
        · exact (List.pairwise_cons.mp hsorted).1 v hv2

/-- **C4** witness: the specification's example group
`["1.0.0","1.2.0","1.2.0-rc1","2.0.0"]` lists as
`["2.0.0","1.2.0","1.2.0-rc1","1.0.0"]` — descending, a permutation, with
`2.0.0` first (the maximum) and the release `1.2.0` ordered before its
pre-release `1.2.0-rc1`. -/
theorem C4_witness :
    CollectionVersionViewSet_list
        [⟨"ns", "c", "1.0.0", false, false, ""⟩,
         ⟨"ns", "c", "1.2.0", false, false, ""⟩,
         ⟨"ns", "c", "1.2.0-rc1", false, false, ""⟩,
         ⟨"ns", "c", "2.0.0", false, false, ""⟩]
      = some [⟨"ns", "c", "2.0.0", false, false, ""⟩,
              ⟨"ns", "c", "1.2.0", false, false, ""⟩,
              ⟨"ns", "c", "1.2.0-rc1", false, false, ""⟩,
              ⟨"ns", "c", "1.0.0", false, false, ""⟩] ∧
    (List.Sorted semverDescends
        ([⟨"ns", "c", "2.0.0", false, false, ""⟩,
          ⟨"ns", "c", "1.2.0", false, false, ""⟩,
          ⟨"ns", "c", "1.2.0-rc1", false, false, ""⟩,
          ⟨"ns", "c", "1.0.0", false, false, ""⟩] : List CollectionVersionRec) ∧
      List.Perm
        ([⟨"ns", "c", "2.0.0", false, false, ""⟩,
          ⟨"ns", "c", "1.2.0", false, false, ""⟩,
          ⟨"ns", "c", "1.2.0-rc1", false, false, ""⟩,
          ⟨"ns", "c", "1.0.0", false, false, ""⟩] : List CollectionVersionRec)
        ([⟨"ns", "c", "1.0.0", false, false, ""⟩,
          ⟨"ns", "c", "1.2.0", false, false, ""⟩,
          ⟨"ns", "c", "1.2.0-rc1", false, false, ""⟩,
          ⟨"ns", "c", "2.0.0", false, false, ""⟩] : List CollectionVersionRec) ∧
      (∀ hd tl,
        ([⟨"ns", "c", "2.0.0", false, false, ""⟩,
          ⟨"ns", "c", "1.2.0", false, false, ""⟩,
          ⟨"ns", "c", "1.2.0-rc1", false, false, ""⟩,
          ⟨"ns", "c", "1.0.0", false, false, ""⟩] :
            List CollectionVersionRec) = hd :: tl →
        ∀ v ∈ ([⟨"ns", "c", "2.0.0", false, false, ""⟩,
                ⟨"ns", "c", "1.2.0", false, false, ""⟩,
                ⟨"ns", "c", "1.2.0-rc1", false, false, ""⟩,
                ⟨"ns", "c", "1.0.0", false, false, ""⟩] : List CollectionVersionRec),
          semverDescends hd v)) :=
  ⟨by decide,
   C4_list_sorted_descending
     ([⟨"ns", "c", "1.0.0", false, false, ""⟩,
       ⟨"ns", "c", "1.2.0", false, false, ""⟩,
       ⟨"ns", "c", "1.2.0-rc1", false, false, ""⟩,
       ⟨"ns", "c", "2.0.0", false, false, ""⟩] : List CollectionVersionRec)
     ([⟨"ns", "c", "2.0.0", false, false, ""⟩,
       ⟨"ns", "c", "1.2.0", false, false, ""⟩,
       ⟨"ns", "c", "1.2.0-rc1", false, false, ""⟩,
       ⟨"ns", "c", "1.0.0", false, false, ""⟩] : List CollectionVersionRec)
     (by decide)⟩
